import Mathlib

set_option maxHeartbeats 1000000

/-
Shallow embedding of the Openwebui Milvus RAG pipeline repository
(src/RAGpipeline.py, src/pipelinewithHYDE.py, src/pipelinewithsupervision.py,
src/Doc2DB.py).

Modelling conventions:
* Texts are lists of characters (`List Char`); Python string operations
  (`strip`, substring membership `in`, slicing) are translated below.
* Floating-point vector entries are modelled as integers (`Int`): the claims
  never depend on the numeric content of an embedding, only on its length and
  on the distinguished zero vector `[0.0] * n`.
* Every external call (embedding service, Milvus search/insert, generative
  model, supervision model) is modelled by an oracle field of an environment
  structure returning `Except PyErr α`: `.error` means the call raised an
  exception (transport failure, `raise_for_status` on a non-2xx response,
  a JSON decoding error, ...), `.ok` carries the decoded payload.
* Python exceptions are values of `PyErr`; an uncaught exception surfaces as
  `.error` in the return type of the embedded function.
-/

/-- Python exception classes, as coarsely as the handlers distinguish them:
`requestError` is `requests.exceptions.RequestException` (raised by the
transport or by `raise_for_status`), `otherError` is any other exception
(`KeyError`, `IndexError`, decode errors, ...). -/
inductive PyErr
  | requestError
  | otherError
deriving DecidableEq

/-- Whitespace test used by Python's `str.strip`. -/
def isSpace (c : Char) : Bool := c.isWhitespace

/-- Python `s.strip()`: drop whitespace from both ends. -/
def pyStrip (s : List Char) : List Char :=
  (((s.dropWhile isSpace).reverse).dropWhile isSpace).reverse

/-- `pat` occurs at the very start of `s` (helper for substring search). -/
def hasSubAt : List Char → List Char → Bool
  | [], _ => true
  | _ :: _, [] => false
  | p :: ps, c :: cs => p == c && hasSubAt ps cs

/-- Python substring membership `pat in s`. -/
def hasSub (pat : List Char) : List Char → Bool
  | [] => hasSubAt pat []
  | c :: cs => hasSubAt pat (c :: cs) || hasSub pat cs

/-- The approval keyword the supervision code searches for:
`return "符合" in result` (pipelinewithsupervision.py line 118). -/
def keyword : List Char := ['符', '合']

/-- Doc2DB.py line 106:
`segments = [text[i:i + segment_length] for i in range(0, len(text), segment_length)]`.
Positional slicing into consecutive chunks of length `L`; Python's `range`
with step `L = 0` would raise, so the `L = 0` guard is never exercised by the
program (every call site passes 2000). -/
def chunkSegments (text : List Char) (L : Nat) : List (List Char) :=
  if h : L = 0 ∨ text = [] then []
  else text.take L :: chunkSegments (text.drop L) L
termination_by text.length
decreasing_by
  push_neg at h
  have h1 : 0 < L := Nat.pos_of_ne_zero h.1
  have h2 : 0 < text.length := List.length_pos.mpr h.2
  simp only [List.length_drop]
  omega

/-! ## Ingestion path (src/Doc2DB.py) -/

/-- A decoded JSON value sitting in the `"embedding"` field of the embedding
service's response: either a list (of numbers) or some non-list value, which
is all `isinstance(embedding, list)` (Doc2DB.py line 115) distinguishes. -/
inductive EmbVal
  | list (v : List Int)
  | nonList
deriving DecidableEq

namespace D2D

/-- Oracle describing the behavior of the external services during one run of
`process_file`, indexed by the position of the segment in the chunk list.
`.error` in a field means the corresponding HTTP/store call raised a
`requests.exceptions.RequestException` (summarization / embedding) or any
exception (insert); `.ok` carries the decoded payload.
For `sumResp`, `.ok cs` is a 2xx response whose `choices` entries have the
message contents `cs`; a response with a missing or empty `choices` list is
`.ok []` (Doc2DB line 66 indexes `response.json().get("choices", [])[0]`,
so both cases take the same `[0]`-on-empty-list path). -/
structure Env where
  sumResp : Nat → Except Unit (List (List Char))
  embResp : Nat → Except Unit EmbVal
  insertResp : Nat → Except Unit Unit

/-- Doc2DB.py lines 50-70, `summarize_text_with_llm`: on a
`RequestException` return the input text unchanged; on a 2xx response
take `choices[0]`'s message content.  `.get("choices", [])[0]` raises an
uncaught `IndexError` when `choices` is missing or empty, modelled as
`.error ()`. -/
def summarize_text_with_llm (env : Env) (i : Nat) (text : List Char) :
    Except Unit (List Char) :=
  match env.sumResp i with
  | .error _ => .ok text
  | .ok [] => .error ()
  | .ok (c :: _) => .ok c

/-- Doc2DB.py lines 73-86, `generate_embedding`: on a `RequestException`
return `[]`; otherwise return the `"embedding"` field of the response
(defaulted to `[]` when missing, with no dimension or type check). -/
def generate_embedding (out : Except Unit EmbVal) : EmbVal :=
  match out with
  | .error _ => .list []
  | .ok v => v

/-- Observable outcome of `process_file`'s segment loop: the
`(embedding, text)` records inserted into the collection, in order, plus
whether the loop was aborted by an exception reaching the outer
`try`/`except` of `process_file` (which logs and returns, dropping the
remaining segments). -/
structure IngestResult where
  inserted : List (List Int × List Char)
  aborted : Bool
deriving DecidableEq

/-- Doc2DB.py lines 108-123, the per-segment loop of `process_file`:
skip whitespace-only segments; summarize (a raised `IndexError` escapes to
the outer handler and aborts the whole document); embed; insert only when
the embedding is a non-empty list (`if embedding and isinstance(embedding,
list)`); an insert failure is caught by the inner `try`/`except` and the
loop continues with the next segment. -/
def processSegments (env : Env) : Nat → List (List Char) → IngestResult
  | _, [] => ⟨[], false⟩
  | i, seg :: rest =>
    if (pyStrip seg).length = 0 then processSegments env (i + 1) rest
    else
      match summarize_text_with_llm env i seg with
      | .error _ => ⟨[], true⟩
      | .ok t =>
        match generate_embedding (env.embResp i) with
        | .list [] => processSegments env (i + 1) rest
        | .nonList => processSegments env (i + 1) rest
        | .list (x :: xs) =>
          match env.insertResp i with
          | .ok _ =>
            let r := processSegments env (i + 1) rest
            ⟨(x :: xs, t) :: r.inserted, r.aborted⟩
          | .error _ => processSegments env (i + 1) rest

/-- Doc2DB.py lines 89-126, `process_file` on already-extracted text:
chunk, then run the segment loop. -/
def process_file (env : Env) (text : List Char) (segment_length : Nat) :
    IngestResult :=
  processSegments env 0 (chunkSegments text segment_length)

end D2D

/-! ## Query path: shared data model -/

/-- One entry of `body['messages']`. -/
structure Msg where
  role : List Char
  content : List Char
deriving DecidableEq

/-- The caller-supplied request `body` dict, restricted to the keys the
pipelines touch: `messages` (cleared and rebuilt), `stream` (`none` models a
missing key, whose lookup raises `KeyError`), and the optional `user`
metadata (only printed). -/
structure Body where
  messages : List Msg
  stream : Option Bool
  user : Option (List Char × List Char)
deriving DecidableEq

/-- One line of the streamed chat-completions response, classified exactly
the way the supervised loop's assembly code (pipelinewithsupervision.py
lines 157-171) branches on it:
* `empty` — a falsy line (`if line:` fails);
* `noData s` — a line not starting with `"data: "`;
* `done` — a `"data: "` line whose payload strips to `"[DONE]"`;
* `unparseable` — a `"data: "` line on which `json.loads` raises;
* `frame cs` — a parsed `"data: "` frame; `cs` lists, per entry of the
  payload's `"choices"` array, the `delta.content` string (missing
  `choices`/`delta`/`content` keys default through `.get(..., [{}])` /
  `.get(..., {})` / `.get(..., "")` to a single empty string, i.e.
  `frame [[]]`; a present-but-empty `choices` array is `frame []`). -/
inductive StreamLine
  | empty
  | noData (s : List Char)
  | done
  | unparseable
  | frame (choices : List (List Char))
deriving DecidableEq

/-- A successfully opened chat-completions response `r`: its streamed lines
(`r.iter_lines()`) and the outcome of decoding the whole body as JSON
(`r.json()`, which may itself raise). The decoded JSON body is abstracted to
its text. -/
structure ChatOk where
  lines : List StreamLine
  jsonBody : Except PyErr (List Char)

/-- What a `pipe` call evaluates to when it does not raise, one constructor
per `return` site of the three pipelines:
* `answer s` — the supervised pipeline's validated generated answer;
* `exhausted` — the supervised pipeline's fixed fallback string
  `"正在学习相关知识中，您可以前往官方网站或联系相关管理人员获取您需要的知识。"`;
* `reqErrorMsg` / `otherErrorMsg` — the supervised pipeline's
  `f"请求出错: {e}"` / `f"其他错误: {e}"` strings;
* `streamOut` / `jsonOut` — the baseline/HyDE `r.iter_lines()` / `r.json()`
  returns;
* `errorMsg` — the baseline/HyDE `f"Error: {e}"` string. -/
inductive PipeOut
  | answer (s : List Char)
  | exhausted
  | reqErrorMsg
  | otherErrorMsg
  | streamOut (lines : List StreamLine)
  | jsonOut (j : List Char)
  | errorMsg

/-- `"user"`, the role of the single synthesized turn. -/
def roleUser : List Char := "user".toList

/-- `"\n\n"`, the separator used by every `combine_user_message_with_context`. -/
def nl2 : List Char := "\n\n".toList

/-- `"\n".join(contexts)`. -/
def joinNL (ctxs : List (List Char)) : List Char := List.intercalate ['\n'] ctxs

/-- `"这是用户问题："`, the question label of the supervised/HyDE prompt. -/
def qLabel : List Char := "这是用户问题：".toList

/-- `"这是你学习的内容，回答时请不要提及从此获取的信息："`, the context label of the
supervised/HyDE prompt. -/
def ctxLabel : List Char := "这是你学习的内容，回答时请不要提及从此获取的信息：".toList

/-! ## Baseline query pipeline (src/RAGpipeline.py) -/

namespace RAG

/-- Oracle for the external services seen by one `pipe` call of the baseline
pipeline. `embed` maps the text sent to `/api/embeddings` to the decoded
`"embedding"` field (defaulted to `[]` when missing); `.error` means the
call raised (transport, non-2xx via `raise_for_status`, or JSON decoding).
`search` maps the query-vector list to the per-query-vector lists of
`text_segment` hits; `.error` means `collection.search` raised. `chat` maps
the sent `messages` to the opened streaming response. -/
structure Env where
  embed : List Char → Except PyErr (List Int)
  search : List (List Int) → Except PyErr (List (List (List Char)))
  chat : List Msg → Except PyErr ChatOk

/-- RAGpipeline.py lines 44-57, `generate_embedding`: the whole body is in a
`try`/`except Exception` returning `[0.0] * 512`; a successful response's
vector is returned unchecked (no dimension test). -/
def generate_embedding (out : Except PyErr (List Int)) : List Int :=
  match out with
  | .error _ => List.replicate 512 0
  | .ok emb => emb

/-- RAGpipeline.py lines 59-72, `retrieve_relevant_information`: embed the
user message and search; **no** `try`/`except` guards the search, so a
raising `collection.search` propagates to the caller, and `results[0]` on an
empty result list raises `IndexError`. -/
def retrieve_relevant_information (env : Env) (m : List Char) :
    Except PyErr (List (List Char)) :=
  let v := generate_embedding (env.embed m)
  match env.search [v] with
  | .error e => .error e
  | .ok [] => .error .otherError
  | .ok (r0 :: _) => .ok r0

/-- RAGpipeline.py lines 74-77: `PROMPT + "\n\n" + user_message + "\n\n" +
"\n".join(contexts)`. -/
def combine_user_message_with_context (prompt m : List Char)
    (ctxs : List (List Char)) : List Char :=
  prompt ++ nl2 ++ m ++ nl2 ++ joinNL ctxs

/-- RAGpipeline.py lines 83-89: clear `body['messages']` and append the one
synthesized user turn carrying the augmented prompt. Propagates a retrieval
exception. -/
def augmentedBody (env : Env) (prompt m : List Char) (body : Body) :
    Except PyErr Body :=
  match retrieve_relevant_information env m with
  | .error e => .error e
  | .ok ctxs =>
    .ok { body with
          messages := [⟨roleUser, combine_user_message_with_context prompt m ctxs⟩] }

/-- RAGpipeline.py lines 79-111, `pipe`: retrieval and prompt assembly run
*before* the `try` block, so their exceptions propagate; everything from the
`requests.post` on is guarded by `except Exception`, which returns the
`f"Error: {e}"` string. `body["stream"]` on a body without that key raises
`KeyError`, caught by the same handler. -/
def pipe (env : Env) (prompt m : List Char) (body : Body) :
    Except PyErr PipeOut :=
  match augmentedBody env prompt m body with
  | .error e => .error e
  | .ok body' =>
    match env.chat body'.messages with
    | .error _ => .ok .errorMsg
    | .ok resp =>
      match body'.stream with
      | none => .ok .errorMsg
      | some true => .ok (.streamOut resp.lines)
      | some false =>
        match resp.jsonBody with
        | .error _ => .ok .errorMsg
        | .ok j => .ok (.jsonOut j)

end RAG

/-! ## HyDE query pipeline (src/pipelinewithHYDE.py) -/

namespace Hyde

/-- Oracle for the HyDE pipeline's external services; `completion` maps the
prompt sent to `/v1/completions` to the list of `choices[i].text` strings of
the decoded response (a response with `choices` missing behaves, through
`.get("choices", [{}])`, like a single choice with empty text, i.e.
`.ok [[]]`; `.ok []` is a present-but-empty `choices` array). -/
structure Env where
  embed : List Char → Except PyErr (List Int)
  completion : List Char → Except PyErr (List (List Char))
  search : List (List Int) → Except PyErr (List (List (List Char)))
  chat : List Msg → Except PyErr ChatOk

/-- pipelinewithHYDE.py lines 44-57, `generate_embedding`: guarded by
`except Exception` returning `[0.0] * 1024`; a successful response's vector
is returned unchecked (no dimension test, despite requesting
`output_dim: 1024`). -/
def generate_embedding (out : Except PyErr (List Int)) : List Int :=
  match out with
  | .error _ => List.replicate 1024 0
  | .ok emb => emb

/-- The fixed instruction template of `generate_hypothetical_answer`
(pipelinewithHYDE.py line 97). -/
def hydeAnswerPrompt (m : List Char) : List Char :=
  "基于以下问题生成一个假设性回答：\n\n".toList ++ m

/-- pipelinewithHYDE.py lines 91-101, `generate_hypothetical_answer`:
a non-streamed completion call with **no** `try`/`except`, so a transport
error or non-2xx response propagates, and `.get("choices", [{}])[0]` on a
present-but-empty `choices` array raises an uncaught `IndexError`; on
success the first choice's text is stripped. -/
def generate_hypothetical_answer (env : Env) (m : List Char) :
    Except PyErr (List Char) :=
  match env.completion (hydeAnswerPrompt m) with
  | .error e => .error e
  | .ok [] => .error .otherError
  | .ok (t :: _) => .ok (pyStrip t)

/-- pipelinewithHYDE.py lines 71-89, `retrieve_relevant_information`:
embed the user message, generate and embed a hypothetical answer, then issue
**one** search whose query set is `[user_vector, hypothetical_vector]` —
but read only `results[0]`, the hit list of the *first* query vector; the
hypothetical vector's hits (`results[1]`) are discarded. No `try`/`except`:
search failures propagate, and an empty result list raises `IndexError`. -/
def retrieve_relevant_information (env : Env) (m : List Char) :
    Except PyErr (List (List Char)) :=
  let v := generate_embedding (env.embed m)
  match generate_hypothetical_answer env m with
  | .error e => .error e
  | .ok hyp =>
    let hv := generate_embedding (env.embed hyp)
    match env.search [v, hv] with
    | .error e => .error e
    | .ok [] => .error .otherError
    | .ok (r0 :: _) => .ok r0

/-- pipelinewithHYDE.py lines 103-106: `PROMPT + "\n\n" + "这是用户问题：" +
"\n\n" + user_message + "\n\n" + "这是你学习的内容，…：" + "\n".join(contexts)`. -/
def combine_user_message_with_context (prompt m : List Char)
    (ctxs : List (List Char)) : List Char :=
  prompt ++ nl2 ++ qLabel ++ nl2 ++ m ++ nl2 ++ ctxLabel ++ joinNL ctxs

/-- pipelinewithHYDE.py lines 112-118: clear `body['messages']` and append
the one synthesized user turn. -/
def augmentedBody (env : Env) (prompt m : List Char) (body : Body) :
    Except PyErr Body :=
  match retrieve_relevant_information env m with
  | .error e => .error e
  | .ok ctxs =>
    .ok { body with
          messages := [⟨roleUser, combine_user_message_with_context prompt m ctxs⟩] }

/-- pipelinewithHYDE.py lines 108-140, `pipe`: same shape as the baseline
pipeline — retrieval (including the unguarded hypothetical-answer call)
runs before the `try` block and propagates; the generation call is guarded
by `except Exception` returning `f"Error: {e}"`. -/
def pipe (env : Env) (prompt m : List Char) (body : Body) :
    Except PyErr PipeOut :=
  match augmentedBody env prompt m body with
  | .error e => .error e
  | .ok body' =>
    match env.chat body'.messages with
    | .error _ => .ok .errorMsg
    | .ok resp =>
      match body'.stream with
      | none => .ok .errorMsg
      | some true => .ok (.streamOut resp.lines)
      | some false =>
        match resp.jsonBody with
        | .error _ => .ok .errorMsg
        | .ok j => .ok (.jsonOut j)

end Hyde

/-! ## Supervised query pipeline (src/pipelinewithsupervision.py) -/

namespace Sup

/-- Oracle for the supervised pipeline. Generation and supervision are
called once per retry attempt, so their oracles are additionally indexed by
the attempt number: `chatAttempt k msgs` is the outcome of the `k`-th
(0-based) `/v1/chat/completions` call with the sent `messages`, and
`supResp k` the decoded `choices[i].text` list of the `k`-th supervision
call (the request body of every attempt is the same augmented prompt). -/
structure Env where
  embed : List Char → Except PyErr (List Int)
  search : List (List Int) → Except PyErr (List (List (List Char)))
  chatAttempt : Nat → List Msg → Except PyErr (List StreamLine)
  supResp : Nat → Except PyErr (List (List Char))

/-- pipelinewithsupervision.py lines 48-66, `generate_embedding`: guarded by
`except Exception` returning `[0.0] * 1024`, and — alone among the three
variants — a successful response whose vector length is not 1024 is replaced
by the 1024-dimensional zero vector. -/
def generate_embedding (out : Except PyErr (List Int)) : List Int :=
  match out with
  | .error _ => List.replicate 1024 0
  | .ok emb => if emb.length = 1024 then emb else List.replicate 1024 0

/-- pipelinewithsupervision.py lines 68-92, `retrieve_relevant_information`:
the search is inside `try`/`except Exception` returning `[]`; an empty
(falsy) result list also returns `[]` before `results[0]` is taken. -/
def retrieve_relevant_information (env : Env) (m : List Char) :
    List (List Char) :=
  let v := generate_embedding (env.embed m)
  match env.search [v] with
  | .error _ => []
  | .ok [] => []
  | .ok (r0 :: _) => r0

/-- pipelinewithsupervision.py lines 94-96: same concatenation as the HyDE
variant. -/
def combine_user_message_with_context (prompt m : List Char)
    (ctxs : List (List Char)) : List Char :=
  prompt ++ nl2 ++ qLabel ++ nl2 ++ m ++ nl2 ++ ctxLabel ++ joinNL ctxs

/-- pipelinewithsupervision.py lines 98-122, `supervise_answer`, as a
function of the supervision call's outcome: everything is inside
`try`/`except` returning `False`, so a raised transport error, a non-2xx
response, an unparseable body, and the `IndexError` from
`.get("choices", [{}])[0]` on an empty `choices` array all yield `False`;
on success the verdict is `"符合" in choices[0].text.strip()`. -/
def supervise_answer (resp : Except PyErr (List (List Char))) : Bool :=
  match resp with
  | .error _ => false
  | .ok [] => false
  | .ok (t :: _) => hasSub keyword (pyStrip t)

/-- pipelinewithsupervision.py lines 154-171, the streamed-response assembly
loop, with `acc` the `generated_answer` accumulated so far: skip falsy
lines, non-`"data: "` lines and frames on which `json.loads` raises;
stop at the `[DONE]` sentinel; append the first choice's `delta.content` of
each parsed frame.  On a parsed frame whose `choices` array is present but
empty, `chunk.get("choices", [{}])[0]` raises `IndexError`, which is *not*
a `json.JSONDecodeError` and escapes the per-frame handler (to `pipe`'s
outer `except Exception`). -/
def assembleFrom (acc : List Char) : List StreamLine → Except PyErr (List Char)
  | [] => .ok acc
  | .empty :: rest => assembleFrom acc rest
  | .noData _ :: rest => assembleFrom acc rest
  | .done :: _ => .ok acc
  | .unparseable :: rest => assembleFrom acc rest
  | .frame [] :: _ => .error .otherError
  | .frame (c :: _) :: rest => assembleFrom (acc ++ c) rest

/-- Assembly of a full streamed response, starting from the empty
`generated_answer`. -/
def assembleStream (lines : List StreamLine) : Except PyErr (List Char) :=
  assembleFrom [] lines

/-- How one run of the supervised `while` loop ends. -/
inductive LoopOut
  | accepted (ans : List Char)
  | exhausted
  | raised (e : PyErr)
deriving DecidableEq

/-- pipelinewithsupervision.py lines 140-182, the retry loop
(`retry_count = 0`, `max_retries = 5`), with `fuel = max_retries -
retry_count` and `k` the attempt index: issue the generation call, assemble
the stream, validate; return the answer when the supervisor approves,
retry otherwise, fall through to the exhaustion return after `fuel` failed
attempts. The second component counts the generation calls issued.
A raised exception (from the generation call or from assembly) ends the
loop and is handed to `pipe`'s handlers. -/
def supLoop (env : Env) (msgs : List Msg) : Nat → Nat → LoopOut × Nat
  | 0, _ => (.exhausted, 0)
  | fuel + 1, k =>
    match env.chatAttempt k msgs with
    | .error e => (.raised e, 1)
    | .ok lines =>
      match assembleStream lines with
      | .error e => (.raised e, 1)
      | .ok ans =>
        if supervise_answer (env.supResp k) then (.accepted ans, 1)
        else
          let r := supLoop env msgs fuel (k + 1)
          (r.1, r.2 + 1)

/-- pipelinewithsupervision.py lines 127-132: clear `body['messages']` and
append the one synthesized user turn (retrieval never raises in this
variant, so this is total). -/
def augmentedBody (env : Env) (prompt m : List Char) (body : Body) : Body :=
  { body with
    messages := [⟨roleUser,
      combine_user_message_with_context prompt m
        (retrieve_relevant_information env m)⟩] }

/-- pipelinewithsupervision.py lines 124-187, `pipe`: assemble the augmented
body, run the retry loop inside `try`, and map its end to the four `return`
sites: the validated answer, the fixed exhaustion fallback string, or the
`except requests.exceptions.RequestException` / `except Exception` error
strings. -/
def pipe (env : Env) (prompt m : List Char) (body : Body) :
    Except PyErr PipeOut :=
  let body' := augmentedBody env prompt m body
  .ok (match (supLoop env body'.messages 5 0).1 with
    | .accepted a => .answer a
    | .exhausted => .exhausted
    | .raised .requestError => .reqErrorMsg
    | .raised .otherError => .otherErrorMsg)

end Sup

/-! ## Spec-side definitions and concrete environments

`fragmentsSpec` follows the words of the claim about stream assembly (the
in-order concatenation of the content fragments of the parseable frames
preceding the first `[DONE]` sentinel); it is compared against the
code-derived `Sup.assembleStream`. `framesWellFormed` delimits the frame
sequences on which every parseable frame before the sentinel carries at
least one choice. The `env…` definitions are concrete instantiations of the
service oracles used by counterexamples and witnesses. -/

/-- The claim's words: concatenate, in order, the content fragment of every
parseable `data:` frame preceding the first `[DONE]` sentinel (the fragment
of a parsed frame is its first choice's `delta.content`, empty when the
frame has no choices). -/
def fragmentsSpec : List StreamLine → List Char
  | [] => []
  | .done :: _ => []
  | .frame cs :: rest => cs.headD [] ++ fragmentsSpec rest
  | .empty :: rest => fragmentsSpec rest
  | .noData _ :: rest => fragmentsSpec rest
  | .unparseable :: rest => fragmentsSpec rest

/-- Every parsed frame strictly before the first `[DONE]` sentinel has a
non-empty `choices` array. -/
def framesWellFormed : List StreamLine → Bool
  | [] => true
  | .done :: _ => true
  | .frame [] :: _ => false
  | .frame (_ :: _) :: rest => framesWellFormed rest
  | .empty :: rest => framesWellFormed rest
  | .noData _ :: rest => framesWellFormed rest
  | .unparseable :: rest => framesWellFormed rest

/-- A baseline environment whose vector store raises on every search. -/
def envRagSearchRaises : RAG.Env where
  embed := fun _ => .ok (List.replicate 512 0)
  search := fun _ => .error .requestError
  chat := fun _ => .error .requestError

/-- A baseline environment on which every service call succeeds. -/
def envRagAllOk : RAG.Env where
  embed := fun _ => .ok (List.replicate 512 0)
  search := fun _ => .ok [[['X']]]
  chat := fun _ => .ok ⟨[], .ok []⟩

/-- A second baseline environment whose store raises (used by the claim
about search-failure handling). -/
def envRagSearchRaises2 : RAG.Env where
  embed := fun _ => .ok (List.replicate 512 0)
  search := fun _ => .error .requestError
  chat := fun _ => .ok ⟨[], .ok []⟩

/-- A supervised environment whose store raises on every search. -/
def envSupSearchRaises : Sup.Env where
  embed := fun _ => .ok (List.replicate 1024 0)
  search := fun _ => .error .requestError
  chatAttempt := fun _ _ => .ok []
  supResp := fun _ => .ok [[]]

/-- A supervised environment whose generation always succeeds with an empty
stream and whose supervisor never approves (its response text is empty, so
it does not contain `"符合"`). -/
def envSupNeverApproves : Sup.Env where
  embed := fun _ => .ok (List.replicate 1024 0)
  search := fun _ => .ok [[['X']]]
  chatAttempt := fun _ _ => .ok [.frame [['h', 'i']], .done]
  supResp := fun _ => .ok [[]]

/-- A HyDE environment in which the store answers the two-vector query with
two distinct hit lists: `[['a']]` for the user-message vector and `[['b']]`
for the hypothetical-answer vector. -/
def envHydeTwoHitLists : Hyde.Env where
  embed := fun _ => .ok [1]
  completion := fun _ => .ok [['h']]
  search := fun _ => .ok [[['a']], [['b']]]
  chat := fun _ => .ok ⟨[], .ok []⟩

/-- An ingestion environment whose summarization service returns a 2xx
response with an empty `choices` array on every call (all other calls
succeed). -/
def envD2DEmptyChoices : D2D.Env where
  sumResp := fun _ => .ok []
  embResp := fun _ => .ok (.list [1])
  insertResp := fun _ => .ok ()

/-- An ingestion environment whose summarization transport fails on segment
0 (a `RequestException`), whose embedding is empty on segment 1, and whose
insert raises on segment 2; everything else succeeds. -/
def envD2DMixed : D2D.Env where
  sumResp := fun i => if i = 0 then .error () else .ok [['s']]
  embResp := fun i => if i = 1 then .ok (.list []) else .ok (.list [1])
  insertResp := fun i => if i = 2 then .error () else .ok ()

/-- A body with no prior turns, `stream = true`, and no user metadata. -/
def bodyPlain : Body := ⟨[], some true, none⟩

/-! ## Lemmas about the string utilities -/

theorem hasSubAt_iff (pat s : List Char) :
    hasSubAt pat s = true ↔ ∃ b, s = pat ++ b := by
  induction pat generalizing s with
  | nil => simp [hasSubAt]
  | cons p ps ih =>
    cases s with
    | nil => simp [hasSubAt]
    | cons c cs =>
      simp only [hasSubAt, Bool.and_eq_true, beq_iff_eq, ih]
      constructor
      · rintro ⟨rfl, b, rfl⟩; exact ⟨b, rfl⟩
      · rintro ⟨b, hb⟩
        rw [List.cons_append] at hb
        injection hb with h1 h2
        exact ⟨h1.symm, b, h2⟩

theorem hasSub_iff (pat s : List Char) :
    hasSub pat s = true ↔ ∃ a b, s = a ++ pat ++ b := by
  induction s with
  | nil =>
    simp only [hasSub, hasSubAt_iff]
    constructor
    · rintro ⟨b, hb⟩; exact ⟨[], b, by simpa using hb⟩
    · rintro ⟨a, b, hab⟩
      have h := hab.symm
      simp only [List.append_assoc, List.append_eq_nil] at h
      exact ⟨[], by simp [h.2.1]⟩
  | cons c cs ih =>
    simp only [hasSub, Bool.or_eq_true, hasSubAt_iff, ih]
    constructor
    · rintro (⟨b, hb⟩ | ⟨a, b, hb⟩)
      · exact ⟨[], b, by simpa using hb⟩
      · exact ⟨c :: a, b, by simp [hb]⟩
    · rintro ⟨a, b, hab⟩
      cases a with
      | nil => exact Or.inl ⟨b, by simpa using hab⟩
      | cons a0 as =>
        rw [List.cons_append, List.cons_append] at hab
        injection hab with h1 h2
        exact Or.inr ⟨as, b, h2⟩

/-- An occurrence of a pattern whose first character fails `q` survives
`dropWhile q`. -/
theorem sub_dropWhile (q : Char → Bool) (p0 : Char) (pr : List Char)
    (h0 : q p0 = false) (a b : List Char) :
    ∃ a' b', (a ++ (p0 :: pr) ++ b).dropWhile q = a' ++ (p0 :: pr) ++ b' := by
  induction a with
  | nil =>
    refine ⟨[], b, ?_⟩
    simp [List.dropWhile_cons, h0]
  | cons c cs ih =>
    cases hc : q c with
    | true => simpa [List.dropWhile_cons, hc] using ih
    | false => exact ⟨c :: cs, b, by simp [List.dropWhile_cons, hc]⟩

/-- Occurrences transport through `reverse`. -/
theorem sub_reverse (pat s : List Char) (h : ∃ a b, s = a ++ pat ++ b) :
    ∃ a b, s.reverse = a ++ pat.reverse ++ b := by
  rcases h with ⟨a, b, rfl⟩
  exact ⟨b.reverse, a.reverse, by simp⟩

/-- `pyStrip s` occurs inside `s` (with the stripped whitespace around it). -/
theorem strip_decomp (s : List Char) : ∃ a b, s = a ++ pyStrip s ++ b := by
  have h1 : s = s.takeWhile isSpace ++ s.dropWhile isSpace :=
    (List.takeWhile_append_dropWhile isSpace s).symm
  set t := s.dropWhile isSpace with ht
  have h2 : t.reverse = t.reverse.takeWhile isSpace ++
      t.reverse.dropWhile isSpace :=
    (List.takeWhile_append_dropWhile isSpace t.reverse).symm
  have h3 : t = (t.reverse.dropWhile isSpace).reverse ++
      (t.reverse.takeWhile isSpace).reverse := by
    calc t = (t.reverse).reverse := (List.reverse_reverse t).symm
      _ = (t.reverse.takeWhile isSpace ++ t.reverse.dropWhile isSpace).reverse := by
          rw [← h2]
      _ = (t.reverse.dropWhile isSpace).reverse ++
          (t.reverse.takeWhile isSpace).reverse := List.reverse_append _ _
  have hps : pyStrip s = (t.reverse.dropWhile isSpace).reverse := by
    simp only [pyStrip, ← ht]
  refine ⟨s.takeWhile isSpace, (t.reverse.takeWhile isSpace).reverse, ?_⟩
  rw [hps, List.append_assoc, ← h3]
  exact h1

/-- The two-character keyword `"符合"` consists of non-whitespace characters,
so Python's `"符合" in result.strip()` agrees with `"符合" in result`. -/
theorem hasSub_keyword_pyStrip (s : List Char) :
    hasSub keyword (pyStrip s) = hasSub keyword s := by
  cases hss : hasSub keyword s with
  | true =>
    rw [hasSub_iff] at hss
    rw [hasSub_iff]
    rcases hss with ⟨a, b, rfl⟩
    have step1 : ∃ a' b',
        ((a ++ keyword ++ b).dropWhile isSpace) = a' ++ keyword ++ b' :=
      sub_dropWhile isSpace '符' ['合'] (by decide) a b
    rcases step1 with ⟨a1, b1, h1⟩
    have step2 : ∃ a' b',
        ((a ++ keyword ++ b).dropWhile isSpace).reverse =
          a' ++ keyword.reverse ++ b' := by
      apply sub_reverse
      exact ⟨a1, b1, h1⟩
    rcases step2 with ⟨a2, b2, h2⟩
    have step3 : ∃ a' b',
        (((a ++ keyword ++ b).dropWhile isSpace).reverse).dropWhile isSpace =
          a' ++ keyword.reverse ++ b' := by
      rcases sub_dropWhile isSpace '合' ['符'] (by decide) a2 b2 with ⟨a3, b3, h3⟩
      exact ⟨a3, b3, by rw [h2]; exact h3⟩
    rcases step3 with ⟨a3, b3, h3⟩
    have step4 : ∃ a' b',
        ((((a ++ keyword ++ b).dropWhile isSpace).reverse).dropWhile
          isSpace).reverse = a' ++ keyword ++ b' := by
      have := sub_reverse keyword.reverse _ ⟨a3, b3, h3⟩
      simpa using this
    rw [pyStrip]
    exact step4
  | false =>
    cases hst : hasSub keyword (pyStrip s) with
    | false => rfl
    | true =>
      exfalso
      rw [hasSub_iff] at hst
      rcases hst with ⟨a, b, hab⟩
      rcases strip_decomp s with ⟨u, v, huv⟩
      have : hasSub keyword s = true := by
        rw [hasSub_iff]
        exact ⟨u ++ a, b ++ v, by rw [huv, hab]; simp⟩
      rw [hss] at this
      cases this

/-- `s.strip()` is empty exactly when `s` is whitespace-only. -/
theorem pyStrip_eq_nil_iff (s : List Char) :
    pyStrip s = [] ↔ ∀ c ∈ s, isSpace c = true := by
  simp only [pyStrip, List.reverse_eq_nil_iff, List.dropWhile_eq_nil_iff,
    List.mem_reverse]
  constructor
  · intro h c hc
    rw [← List.takeWhile_append_dropWhile isSpace s] at hc
    rcases List.mem_append.mp hc with h1 | h2
    · exact List.mem_takeWhile_imp h1
    · exact h c h2
  · intro h c hc
    refine h c ?_
    rw [← List.takeWhile_append_dropWhile isSpace s]
    exact List.mem_append.mpr (Or.inr hc)

/-! ## Lemmas about the chunker -/

theorem chunkSegments_join_aux (L : Nat) (hL : 0 < L) :
    ∀ (n : Nat) (text : List Char), text.length ≤ n →
      (chunkSegments text L).flatten = text := by
  intro n
  induction n with
  | zero =>
    intro text htext
    have h0 : text = [] := List.eq_nil_of_length_eq_zero (Nat.le_zero.mp htext)
    subst h0
    rw [chunkSegments]
    simp
  | succ n ih =>
    intro text htext
    rcases eq_or_ne text [] with rfl | hne
    · rw [chunkSegments]; simp
    · have hcond : ¬(L = 0 ∨ text = []) := by
        push_neg
        exact ⟨Nat.pos_iff_ne_zero.mp hL, hne⟩
      rw [chunkSegments, dif_neg hcond, List.flatten_cons]
      have hdrop : (text.drop L).length ≤ n := by
        rw [List.length_drop]
        have hpos : 0 < text.length := List.length_pos.mpr hne
        omega
      rw [ih (text.drop L) hdrop]
      exact List.take_append_drop L text

theorem chunkSegments_mem_length_aux (L : Nat) :
    ∀ (n : Nat) (text : List Char), text.length ≤ n →
      ∀ s ∈ chunkSegments text L, s.length ≤ L := by
  intro n
  induction n with
  | zero =>
    intro text htext s hs
    have h0 : text = [] := List.eq_nil_of_length_eq_zero (Nat.le_zero.mp htext)
    subst h0
    rw [chunkSegments] at hs
    simp at hs
  | succ n ih =>
    intro text htext s hs
    by_cases hcond : L = 0 ∨ text = []
    · rw [chunkSegments, dif_pos hcond] at hs
      cases hs
    · rw [chunkSegments, dif_neg hcond] at hs
      push_neg at hcond
      rcases List.mem_cons.mp hs with rfl | hs'
      · calc (text.take L).length = min L text.length := List.length_take L text
          _ ≤ L := Nat.min_le_left _ _
      · have hdrop : (text.drop L).length ≤ n := by
          rw [List.length_drop]
          have hpos : 0 < text.length := List.length_pos.mpr hcond.2
          have hLpos : 0 < L := Nat.pos_of_ne_zero hcond.1
          omega
        exact ih (text.drop L) hdrop s hs'

/-! ## Lemmas about the supervised retry loop -/

theorem supLoop_calls_le (env : Sup.Env) (msgs : List Msg) :
    ∀ fuel k, (Sup.supLoop env msgs fuel k).2 ≤ fuel := by
  intro fuel
  induction fuel with
  | zero => intro k; simp [Sup.supLoop]
  | succ fuel ih =>
    intro k
    simp only [Sup.supLoop]
    have h := ih (k + 1)
    cases hc : env.chatAttempt k msgs with
    | error e => simp
    | ok lines =>
      dsimp only
      cases ha : Sup.assembleStream lines with
      | error e => exact Nat.succ_le_succ (Nat.zero_le fuel)
      | ok ans =>
        dsimp only
        cases hs : Sup.supervise_answer (env.supResp k) with
        | true => simp [hs]
        | false => simp [hs]; omega

theorem supLoop_exhaust (env : Sup.Env) (msgs : List Msg) :
    ∀ fuel k0,
      (∀ k, k0 ≤ k → k < k0 + fuel →
        (∃ lines, env.chatAttempt k msgs = .ok lines ∧
          ∃ ans, Sup.assembleStream lines = .ok ans) ∧
        Sup.supervise_answer (env.supResp k) = false) →
      Sup.supLoop env msgs fuel k0 = (.exhausted, fuel) := by
  intro fuel
  induction fuel with
  | zero => intro k0 _; simp [Sup.supLoop]
  | succ fuel ih =>
    intro k0 hall
    have hk0 := hall k0 (Nat.le_refl k0) (by omega)
    rcases hk0.1 with ⟨lines, hchat, ans, hasm⟩
    simp only [Sup.supLoop, hchat, hasm, hk0.2, Bool.false_eq_true, if_false]
    have hrec : Sup.supLoop env msgs fuel (k0 + 1) = (.exhausted, fuel) := by
      apply ih
      intro k hk1 hk2
      exact hall k (by omega) (by omega)
    rw [hrec]

theorem supLoop_accept (env : Sup.Env) (msgs : List Msg)
    (ls : Nat → List StreamLine) (a : Nat → List Char) :
    ∀ fuel k0 j, j < fuel →
      (∀ k, k0 ≤ k → k < k0 + fuel → env.chatAttempt k msgs = .ok (ls k)) →
      (∀ k, k0 ≤ k → k < k0 + fuel →
        Sup.assembleStream (ls k) = .ok (a k)) →
      Sup.supervise_answer (env.supResp (k0 + j)) = true →
      (∀ i, i < j → Sup.supervise_answer (env.supResp (k0 + i)) = false) →
      Sup.supLoop env msgs fuel k0 = (.accepted (a (k0 + j)), j + 1) := by
  intro fuel
  induction fuel with
  | zero => intro k0 j hj; omega
  | succ fuel ih =>
    intro k0 j hj hchat hasm happrove hbefore
    have hchat0 := hchat k0 (Nat.le_refl k0) (by omega)
    have hasm0 := hasm k0 (Nat.le_refl k0) (by omega)
    cases j with
    | zero =>
      simp only [Sup.supLoop, hchat0, hasm0]
      rw [show k0 + 0 = k0 from rfl] at happrove
      simp [happrove]
    | succ j' =>
      have hfalse0 : Sup.supervise_answer (env.supResp k0) = false := by
        have h := hbefore 0 (by omega)
        simpa using h
      simp only [Sup.supLoop, hchat0, hasm0, hfalse0, Bool.false_eq_true,
        if_false]
      have hrec : Sup.supLoop env msgs fuel (k0 + 1) =
          (.accepted (a (k0 + 1 + j')), j' + 1) := by
        apply ih (k0 + 1) j' (by omega)
        · intro k hk1 hk2; exact hchat k (by omega) (by omega)
        · intro k hk1 hk2; exact hasm k (by omega) (by omega)
        · have : k0 + 1 + j' = k0 + (j' + 1) := by omega
          rw [this]
          exact happrove
        · intro i hi
          have : k0 + 1 + i = k0 + (i + 1) := by omega
          rw [this]
          exact hbefore (i + 1) (by omega)
      rw [hrec]
      have : k0 + 1 + j' = k0 + (j' + 1) := by omega
      rw [this]

/-! ## Lemmas about stream assembly -/

theorem assembleFrom_wellFormed :
    ∀ (ls : List StreamLine) (acc : List Char), framesWellFormed ls = true →
      Sup.assembleFrom acc ls = .ok (acc ++ fragmentsSpec ls) := by
  intro ls
  induction ls with
  | nil => intro acc _; simp [Sup.assembleFrom, fragmentsSpec]
  | cons l rest ih =>
    intro acc hwf
    cases l with
    | empty =>
      rw [framesWellFormed] at hwf
      simp only [Sup.assembleFrom, fragmentsSpec]
      exact ih acc hwf
    | noData s =>
      rw [framesWellFormed] at hwf
      simp only [Sup.assembleFrom, fragmentsSpec]
      exact ih acc hwf
    | done => simp [Sup.assembleFrom, fragmentsSpec]
    | unparseable =>
      rw [framesWellFormed] at hwf
      simp only [Sup.assembleFrom, fragmentsSpec]
      exact ih acc hwf
    | frame cs =>
      cases cs with
      | nil => rw [framesWellFormed] at hwf; cases hwf
      | cons c cs' =>
        rw [framesWellFormed] at hwf
        simp only [Sup.assembleFrom, fragmentsSpec, List.headD]
        rw [ih (acc ++ c) hwf]
        simp

/-! ## Claims -/

/-- C6: for every document text `T` and every segment length `L > 0`, the
chunker produces the consecutive slices `T[0:L], T[L:2L], …`; concatenating
all produced segments (before the blank filter) reconstructs `T` exactly;
every segment has length at most `L`; and every segment surviving the
`len(segment.strip()) == 0` filter contains a non-whitespace character.
(The sequence is a deterministic function of `(T, L)` by construction:
`chunkSegments` is a pure function of its two arguments.) -/
theorem chunker_spec (T : List Char) (L : Nat) (hL : 0 < L) :
    (chunkSegments T L).flatten = T ∧
    (∀ s ∈ chunkSegments T L, s.length ≤ L) ∧
    (∀ s ∈ chunkSegments T L, (pyStrip s).length ≠ 0 →
      ∃ c ∈ s, ¬(isSpace c = true)) := by
  refine ⟨chunkSegments_join_aux L hL T.length T (Nat.le_refl _),
    chunkSegments_mem_length_aux L T.length T (Nat.le_refl _), ?_⟩
  intro s _ hstrip
  by_contra hall
  push_neg at hall
  have hnil : pyStrip s = [] := (pyStrip_eq_nil_iff s).mpr hall
  exact hstrip (by rw [hnil]; rfl)

/-- Witness for C6 at the concrete text `"A. B. C."` and `L = 4`. -/
theorem chunker_spec_witness :
    0 < 4 ∧
    ((chunkSegments "A. B. C.".toList 4).flatten = "A. B. C.".toList ∧
     (∀ s ∈ chunkSegments "A. B. C.".toList 4, s.length ≤ 4) ∧
     (∀ s ∈ chunkSegments "A. B. C.".toList 4, (pyStrip s).length ≠ 0 →
       ∃ c ∈ s, ¬(isSpace c = true))) :=
  ⟨by decide, chunker_spec "A. B. C.".toList 4 (by decide)⟩

/-- C10: `supervise_answer` approves exactly when the supervision response
text contains the substring `"符合"` (the `strip()` the code applies first
does not change that, since the keyword has no whitespace); the literal
response `"true"` that the supervision prompt requests is rejected; and a
raised transport error, a non-2xx response, or a malformed body (empty
`choices`) all yield `false`. -/
theorem supervise_verdict :
    (∀ (t : List Char) (rest : List (List Char)),
      Sup.supervise_answer (.ok (t :: rest)) = hasSub keyword t) ∧
    Sup.supervise_answer (.ok ["true".toList]) = false ∧
    (∀ e, Sup.supervise_answer (.error e) = false) ∧
    Sup.supervise_answer (.ok []) = false := by
  refine ⟨?_, ?_, fun e => rfl, rfl⟩
  · intro t rest
    show hasSub keyword (pyStrip t) = hasSub keyword t
    exact hasSub_keyword_pyStrip t
  · decide

/-- C2 counterexample: the claim asserts the dimension-correct zero-vector
fallback for *all* `generate_embedding` implementations, but (a) the
baseline pipeline (`RAGpipeline.py`, configured dimension 512) returns a
successful response's vector unchecked — here a length-3 vector — and (b)
`Doc2DB.py` (collection dimension 768) returns the *empty* list on a
transport failure, not a 768-dimensional zero vector. -/
theorem embedding_fallback_counterexample :
    RAG.generate_embedding (.ok [1, 2, 3]) = [1, 2, 3] ∧
    ([1, 2, 3] : List Int).length ≠ 512 ∧
    D2D.generate_embedding (.error ()) = .list [] ∧
    EmbVal.list [] ≠ .list (List.replicate 768 0) := by
  refine ⟨rfl, by decide, rfl, ?_⟩
  intro h
  injection h with h'
  have hlen := congrArg List.length h'
  rw [List.length_replicate] at hlen
  exact absurd hlen (by decide)

/-- C2 amended: only the supervised pipeline implements the full claim
(zero vector of dimension 1024 on failure *and* on a wrong-length
response); the baseline pipeline returns `[0.0] * 512` only on failure and
passes successful responses through unchecked; the HyDE pipeline likewise
with 1024; `Doc2DB.py` returns `[]` on failure and never checks the
dimension. None of the four raises past this boundary (each is a total
function of the call's outcome). -/
theorem embedding_fallback_amended :
    (∀ out, (Sup.generate_embedding out).length = 1024) ∧
    (∀ e, Sup.generate_embedding (.error e) = List.replicate 1024 0) ∧
    (∀ v : List Int, v.length ≠ 1024 →
      Sup.generate_embedding (.ok v) = List.replicate 1024 0) ∧
    (∀ e, RAG.generate_embedding (.error e) = List.replicate 512 0) ∧
    (∀ v : List Int, RAG.generate_embedding (.ok v) = v) ∧
    (∀ e, Hyde.generate_embedding (.error e) = List.replicate 1024 0) ∧
    (∀ v : List Int, Hyde.generate_embedding (.ok v) = v) ∧
    (∀ e, D2D.generate_embedding (.error e) = .list []) ∧
    (∀ v, D2D.generate_embedding (.ok v) = v) := by
  refine ⟨?_, fun e => rfl, ?_, fun e => rfl, fun v => rfl, fun e => rfl,
    fun v => rfl, fun e => rfl, fun v => rfl⟩
  · intro out
    match out with
    | .error e => exact List.length_replicate 1024 0
    | .ok v =>
      simp only [Sup.generate_embedding]
      by_cases h : v.length = 1024
      · rw [if_pos h]; exact h
      · rw [if_neg h]; exact List.length_replicate 1024 0
  · intro v hv
    show (if v.length = 1024 then v else List.replicate 1024 0) =
      List.replicate 1024 0
    rw [if_neg hv]

/-- Witness for C2 (amended) at the concrete wrong-length vector `[5]`. -/
theorem embedding_fallback_amended_witness :
    ([5] : List Int).length ≠ 1024 ∧
    Sup.generate_embedding (.ok [5]) = List.replicate 1024 0 :=
  ⟨by decide, embedding_fallback_amended.2.2.1 [5] (by decide)⟩

/-- C1 counterexample: in the baseline pipeline (`RAGpipeline.py`) the store
search runs inside `retrieve_relevant_information`, which has no handler and
is called *before* `pipe`'s `try` block — so with a raising store, `pipe`
propagates the exception to its caller instead of returning a value. -/
theorem pipe_totality_counterexample :
    RAG.pipe envRagSearchRaises [] ['q'] bodyPlain = .error .requestError := rfl

/-- C1 amended: the supervised pipeline's `pipe` returns a value (an
approved answer, the fixed exhaustion fallback, or one of the two fixed
error strings) for every behavior of the external services; the baseline
and HyDE variants return a value provided retrieval completed without
raising, but a store-search exception (or, in HyDE, an exception from the
unguarded hypothetical-answer call) propagates out of `pipe`. -/
theorem pipe_totality_amended :
    (∀ (env : Sup.Env) (prompt m : List Char) (body : Body),
      ∃ out, Sup.pipe env prompt m body = .ok out) ∧
    (∀ (env : RAG.Env) (prompt m : List Char) (body : Body)
      (ctxs : List (List Char)),
      RAG.retrieve_relevant_information env m = .ok ctxs →
      ∃ out, RAG.pipe env prompt m body = .ok out) ∧
    (∀ (env : Hyde.Env) (prompt m : List Char) (body : Body)
      (ctxs : List (List Char)),
      Hyde.retrieve_relevant_information env m = .ok ctxs →
      ∃ out, Hyde.pipe env prompt m body = .ok out) := by
  refine ⟨?_, ?_, ?_⟩
  · intro env prompt m body
    exact ⟨_, rfl⟩
  · intro env prompt m body ctxs hret
    obtain ⟨msgs0, stream0, user0⟩ := body
    simp only [RAG.pipe, RAG.augmentedBody, hret]
    cases env.chat
        [⟨roleUser, RAG.combine_user_message_with_context prompt m ctxs⟩] with
    | error e => exact ⟨_, rfl⟩
    | ok resp =>
      obtain ⟨lines0, json0⟩ := resp
      dsimp only
      cases stream0 with
      | none => exact ⟨_, rfl⟩
      | some st =>
        cases st with
        | true => exact ⟨_, rfl⟩
        | false =>
          cases json0 with
          | error e => exact ⟨_, rfl⟩
          | ok j => exact ⟨_, rfl⟩
  · intro env prompt m body ctxs hret
    obtain ⟨msgs0, stream0, user0⟩ := body
    simp only [Hyde.pipe, Hyde.augmentedBody, hret]
    cases env.chat
        [⟨roleUser, Hyde.combine_user_message_with_context prompt m ctxs⟩] with
    | error e => exact ⟨_, rfl⟩
    | ok resp =>
      obtain ⟨lines0, json0⟩ := resp
      dsimp only
      cases stream0 with
      | none => exact ⟨_, rfl⟩
      | some st =>
        cases st with
        | true => exact ⟨_, rfl⟩
        | false =>
          cases json0 with
          | error e => exact ⟨_, rfl⟩
          | ok j => exact ⟨_, rfl⟩

/-- Witness for C1 (amended): a baseline environment on which retrieval
succeeds, so `pipe` returns a value. -/
theorem pipe_totality_amended_witness :
    RAG.retrieve_relevant_information envRagAllOk ['q'] = .ok [['X']] ∧
    ∃ out, RAG.pipe envRagAllOk [] ['q'] bodyPlain = .ok out :=
  ⟨rfl, pipe_totality_amended.2.1 envRagAllOk [] ['q'] bodyPlain [['X']] rfl⟩

/-- C5 counterexample: the claim asserts that in *every* query-path variant
a raising store search yields the empty list without propagating; the
baseline variant instead propagates the exception out of
`retrieve_relevant_information` (and hence out of `pipe`). -/
theorem search_failure_counterexample :
    RAG.retrieve_relevant_information envRagSearchRaises2 ['q'] =
      .error .requestError := rfl

/-- C5 amended: only the supervised variant converts a raising store search
into the empty `RetrievalResult`; the baseline and HyDE variants propagate
the search exception to their caller. -/
theorem search_failure_amended :
    (∀ (env : Sup.Env) (m : List Char) (e : PyErr),
      env.search [Sup.generate_embedding (env.embed m)] = .error e →
      Sup.retrieve_relevant_information env m = []) ∧
    (∀ (env : RAG.Env) (m : List Char) (e : PyErr),
      env.search [RAG.generate_embedding (env.embed m)] = .error e →
      RAG.retrieve_relevant_information env m = .error e) ∧
    (∀ (env : Hyde.Env) (m hyp : List Char) (e : PyErr),
      Hyde.generate_hypothetical_answer env m = .ok hyp →
      env.search [Hyde.generate_embedding (env.embed m),
        Hyde.generate_embedding (env.embed hyp)] = .error e →
      Hyde.retrieve_relevant_information env m = .error e) := by
  refine ⟨?_, ?_, ?_⟩
  · intro env m e h
    simp only [Sup.retrieve_relevant_information, h]
  · intro env m e h
    simp only [RAG.retrieve_relevant_information, h]
  · intro env m hyp e hh hs
    simp only [Hyde.retrieve_relevant_information, hh, hs]

/-- Witness for C5 (amended): a supervised environment whose store raises;
retrieval returns `[]`. -/
theorem search_failure_amended_witness :
    envSupSearchRaises.search
        [Sup.generate_embedding (envSupSearchRaises.embed ['q'])] =
      .error .requestError ∧
    Sup.retrieve_relevant_information envSupSearchRaises ['q'] = [] :=
  ⟨rfl, search_failure_amended.1 envSupSearchRaises ['q'] .requestError rfl⟩

/-- C4 counterexample: the store answers the two-vector HyDE query with the
hit list `[['a']]` for the user-message vector and `[['b']]` for the
hypothetical-answer vector, but `retrieve_relevant_information` reads only
`results[0]`: the returned `RetrievalResult` is `[['a']]` and the
hypothetical vector's segment `['b']` is *not* among the candidates. -/
theorem hyde_merge_counterexample :
    Hyde.retrieve_relevant_information envHydeTwoHitLists ['q'] =
      .ok [['a']] ∧
    (['b'] : List Char) ∉ ([['a']] : List (List Char)) :=
  ⟨rfl, by decide⟩

/-- C4 amended: HyDE retrieval embeds both the user message and the
model-generated hypothetical answer and issues one similarity search with
both vectors as the query set, but the returned `RetrievalResult` consists
only of the segments of the *first* query vector's hit list (the user
message's); the hypothetical vector's hits are discarded. -/
theorem hyde_merge_amended :
    ∀ (env : Hyde.Env) (m t : List Char) (ts : List (List Char))
      (r0 : List (List Char)) (rs : List (List (List Char))),
      env.completion (Hyde.hydeAnswerPrompt m) = .ok (t :: ts) →
      env.search [Hyde.generate_embedding (env.embed m),
        Hyde.generate_embedding (env.embed (pyStrip t))] = .ok (r0 :: rs) →
      Hyde.retrieve_relevant_information env m = .ok r0 := by
  intro env m t ts r0 rs hc hs
  simp only [Hyde.retrieve_relevant_information,
    Hyde.generate_hypothetical_answer, hc, hs]

/-- Witness for C4 (amended) at the concrete two-hit-list environment. -/
theorem hyde_merge_amended_witness :
    envHydeTwoHitLists.completion (Hyde.hydeAnswerPrompt ['q']) =
      .ok [['h']] ∧
    envHydeTwoHitLists.search
        [Hyde.generate_embedding (envHydeTwoHitLists.embed ['q']),
         Hyde.generate_embedding (envHydeTwoHitLists.embed (pyStrip ['h']))] =
      .ok [[['a']], [['b']]] ∧
    Hyde.retrieve_relevant_information envHydeTwoHitLists ['q'] =
      .ok [['a']] :=
  ⟨rfl, rfl, hyde_merge_amended envHydeTwoHitLists ['q'] ['h'] [] [['a']]
    [[['b']]] rfl rfl⟩

/-- C3: in the supervised pipeline with `max_retries = 5`, for every
sequence of supervisor verdicts (with the generation call and the stream
assembly succeeding on every attempt): at most 5 generation calls are
issued; if no attempt is approved, the loop ends `Exhausted` after exactly
5 generation calls and `pipe` returns the fixed exhaustion fallback — never
an unapproved generated answer; and if attempt `j` (0-based) is the first
approved one, exactly `j + 1` generation calls are issued and that
attempt's assembled answer is returned. -/
theorem retry_policy (env : Sup.Env) (msgs : List Msg)
    (ls : Nat → List StreamLine) (a : Nat → List Char) :
    ((Sup.supLoop env msgs 5 0).2 ≤ 5) ∧
    ((∀ k, k < 5 → env.chatAttempt k msgs = .ok (ls k)) →
     (∀ k, k < 5 → Sup.assembleStream (ls k) = .ok (a k)) →
     (((∀ k, k < 5 → Sup.supervise_answer (env.supResp k) = false) →
        Sup.supLoop env msgs 5 0 = (.exhausted, 5)) ∧
      (∀ j, j < 5 → Sup.supervise_answer (env.supResp j) = true →
        (∀ i, i < j → Sup.supervise_answer (env.supResp i) = false) →
        Sup.supLoop env msgs 5 0 = (.accepted (a j), j + 1)))) ∧
    (∀ (prompt m : List Char) (body : Body),
      msgs = (Sup.augmentedBody env prompt m body).messages →
      (∀ k, k < 5 → env.chatAttempt k msgs = .ok (ls k)) →
      (∀ k, k < 5 → Sup.assembleStream (ls k) = .ok (a k)) →
      (((∀ k, k < 5 → Sup.supervise_answer (env.supResp k) = false) →
         Sup.pipe env prompt m body = .ok .exhausted) ∧
       (∀ j, j < 5 → Sup.supervise_answer (env.supResp j) = true →
         (∀ i, i < j → Sup.supervise_answer (env.supResp i) = false) →
         Sup.pipe env prompt m body = .ok (.answer (a j))))) := by
  refine ⟨supLoop_calls_le env msgs 5 0, ?_, ?_⟩
  · intro hchat hasm
    constructor
    · intro hfalse
      apply supLoop_exhaust
      intro k hk1 hk2
      have hk5 : k < 5 := by omega
      exact ⟨⟨ls k, hchat k hk5, a k, hasm k hk5⟩, hfalse k hk5⟩
    · intro j hj happ hbef
      have h := supLoop_accept env msgs ls a 5 0 j hj
        (fun k hk1 hk2 => hchat k (by omega))
        (fun k hk1 hk2 => hasm k (by omega))
        (by rw [Nat.zero_add]; exact happ)
        (fun i hi => by rw [Nat.zero_add]; exact hbef i hi)
      rw [Nat.zero_add] at h
      exact h
  · intro prompt m body hmsgs hchat hasm
    constructor
    · intro hfalse
      have hloop : Sup.supLoop env msgs 5 0 = (.exhausted, 5) := by
        apply supLoop_exhaust
        intro k hk1 hk2
        have hk5 : k < 5 := by omega
        exact ⟨⟨ls k, hchat k hk5, a k, hasm k hk5⟩, hfalse k hk5⟩
      simp only [Sup.pipe, ← hmsgs, hloop]
    · intro j hj happ hbef
      have hloop : Sup.supLoop env msgs 5 0 = (.accepted (a j), j + 1) := by
        have h := supLoop_accept env msgs ls a 5 0 j hj
          (fun k hk1 hk2 => hchat k (by omega))
          (fun k hk1 hk2 => hasm k (by omega))
          (by rw [Nat.zero_add]; exact happ)
          (fun i hi => by rw [Nat.zero_add]; exact hbef i hi)
        rw [Nat.zero_add] at h
        exact h
      simp only [Sup.pipe, ← hmsgs, hloop]

/-- Witness for C3 at a concrete supervised environment whose supervisor
never approves: all five generation calls are issued and the loop ends
`Exhausted`. -/
theorem retry_policy_witness :
    (∀ k, k < 5 → envSupNeverApproves.chatAttempt k [] =
      .ok [.frame [['h', 'i']], .done]) ∧
    (∀ k, k < 5 →
      Sup.assembleStream [.frame [['h', 'i']], .done] = .ok ['h', 'i']) ∧
    (∀ k, k < 5 →
      Sup.supervise_answer (envSupNeverApproves.supResp k) = false) ∧
    Sup.supLoop envSupNeverApproves [] 5 0 = (.exhausted, 5) :=
  ⟨fun _ _ => rfl, fun _ _ => rfl, fun _ _ => rfl,
   ((retry_policy envSupNeverApproves []
      (fun _ => [.frame [['h', 'i']], .done]) (fun _ => ['h', 'i'])).2.1
      (fun _ _ => rfl) (fun _ _ => rfl)).1 (fun _ _ => rfl)⟩

/-- C7 counterexample: a summarization response with an empty (or missing)
`choices` list raises an uncaught `IndexError`, which reaches
`process_file`'s outer handler and aborts the *whole* document: with two
non-blank segments and the embedding/insert services healthy, nothing at
all is inserted — the original text of segment 0 is not used, and segment 1
is never summarized, embedded, or inserted. -/
theorem ingestion_isolation_counterexample :
    D2D.processSegments envD2DEmptyChoices 0 [['a'], ['b']] = ⟨[], true⟩ ∧
    (⟨[], true⟩ : D2D.IngestResult) ≠
      ⟨[([1], ['a']), ([1], ['b'])], false⟩ :=
  ⟨rfl, by decide⟩

/-- C7 amended: per non-blank segment, (1) if the summarization *transport*
call fails (a `RequestException`), the original segment text is used
unchanged for embedding and insertion and processing continues — but a 2xx
summarization response with an empty `choices` list aborts the remaining
segments of the document; (2) if the embedding is empty or not a list, the
segment is skipped and processing continues; (3) a failure while inserting
one segment's record does not prevent the remaining segments from being
processed. -/
theorem ingestion_isolation_amended :
    ∀ (env : D2D.Env) (i : Nat) (seg : List Char)
      (rest : List (List Char)),
      (pyStrip seg).length ≠ 0 →
      ((env.sumResp i = .error () →
        ∀ x xs, env.embResp i = .ok (.list (x :: xs)) →
        env.insertResp i = .ok () →
        D2D.processSegments env i (seg :: rest) =
          ⟨(x :: xs, seg) ::
             (D2D.processSegments env (i + 1) rest).inserted,
           (D2D.processSegments env (i + 1) rest).aborted⟩) ∧
       (env.sumResp i ≠ .ok [] →
        (env.embResp i = .ok (.list []) ∨ env.embResp i = .ok .nonList) →
        D2D.processSegments env i (seg :: rest) =
          D2D.processSegments env (i + 1) rest) ∧
       (env.sumResp i ≠ .ok [] → env.insertResp i = .error () →
        D2D.processSegments env i (seg :: rest) =
          D2D.processSegments env (i + 1) rest)) := by
  intro env i seg rest hseg
  refine ⟨?_, ?_, ?_⟩
  · intro hsum x xs hemb hins
    simp [D2D.processSegments, D2D.summarize_text_with_llm,
      D2D.generate_embedding, hsum, hemb, hins, hseg]
  · intro hsum hemb
    cases hs : env.sumResp i with
    | error u =>
      rcases hemb with h | h <;>
        simp [D2D.processSegments, D2D.summarize_text_with_llm,
          D2D.generate_embedding, hs, h, hseg]
    | ok cs =>
      cases cs with
      | nil => exact absurd hs hsum
      | cons c cs' =>
        rcases hemb with h | h <;>
          simp [D2D.processSegments, D2D.summarize_text_with_llm,
            D2D.generate_embedding, hs, h, hseg]
  · intro hsum hins
    cases hs : env.sumResp i with
    | error u =>
      cases hv : env.embResp i with
      | error u2 =>
        simp [D2D.processSegments, D2D.summarize_text_with_llm,
          D2D.generate_embedding, hs, hv, hseg]
      | ok v =>
        cases v with
        | list w =>
          cases w with
          | nil =>
            simp [D2D.processSegments, D2D.summarize_text_with_llm,
              D2D.generate_embedding, hs, hv, hseg]
          | cons x xs =>
            simp [D2D.processSegments, D2D.summarize_text_with_llm,
              D2D.generate_embedding, hs, hv, hins, hseg]
        | nonList =>
          simp [D2D.processSegments, D2D.summarize_text_with_llm,
            D2D.generate_embedding, hs, hv, hseg]
    | ok cs =>
      cases cs with
      | nil => exact absurd hs hsum
      | cons c cs' =>
        cases hv : env.embResp i with
        | error u2 =>
          simp [D2D.processSegments, D2D.summarize_text_with_llm,
            D2D.generate_embedding, hs, hv, hseg]
        | ok v =>
          cases v with
          | list w =>
            cases w with
            | nil =>
              simp [D2D.processSegments, D2D.summarize_text_with_llm,
                D2D.generate_embedding, hs, hv, hseg]
            | cons x xs =>
              simp [D2D.processSegments, D2D.summarize_text_with_llm,
                D2D.generate_embedding, hs, hv, hins, hseg]
          | nonList =>
            simp [D2D.processSegments, D2D.summarize_text_with_llm,
              D2D.generate_embedding, hs, hv, hseg]

/-- Witness for C7 (amended) at a concrete environment whose summarization
transport fails on segment 0: the original text `['a']` is inserted. -/
theorem ingestion_isolation_amended_witness :
    (pyStrip ['a']).length ≠ 0 ∧
    envD2DMixed.sumResp 0 = .error () ∧
    envD2DMixed.embResp 0 = .ok (.list [1]) ∧
    envD2DMixed.insertResp 0 = .ok () ∧
    D2D.processSegments envD2DMixed 0 [['a']] =
      ⟨([1], ['a']) :: (D2D.processSegments envD2DMixed 1 []).inserted,
       (D2D.processSegments envD2DMixed 1 []).aborted⟩ :=
  ⟨by decide, rfl, rfl, rfl,
   (ingestion_isolation_amended envD2DMixed 0 ['a'] [] (by decide)).1
     rfl 1 [] rfl rfl⟩

/-- C8: each `pipe` call replaces `body['messages']` with exactly one
synthesized user turn whose content is the augmented prompt built from the
fixed persona prompt, that call's own user message, and the contexts
retrieved *in that call*; the call's behavior does not depend on the
incoming `messages` at all. Since a prior call's retrieved contexts or
answer could only reach the next call through `body['messages']`, the
second call's augmented prompt contains nothing from the first call. -/
theorem statelessness :
    (∀ (env : RAG.Env) (prompt m : List Char) (body : Body)
      (ms : List Msg),
      RAG.pipe env prompt m { body with messages := ms } =
        RAG.pipe env prompt m body) ∧
    (∀ (env : RAG.Env) (prompt m : List Char) (body : Body)
      (ctxs : List (List Char)),
      RAG.retrieve_relevant_information env m = .ok ctxs →
      RAG.augmentedBody env prompt m body =
        .ok { body with messages :=
          [⟨roleUser,
            RAG.combine_user_message_with_context prompt m ctxs⟩] }) ∧
    (∀ (env : Sup.Env) (prompt m : List Char) (body : Body)
      (ms : List Msg),
      Sup.pipe env prompt m { body with messages := ms } =
        Sup.pipe env prompt m body) ∧
    (∀ (env : Sup.Env) (prompt m : List Char) (body : Body),
      (Sup.augmentedBody env prompt m body).messages =
        [⟨roleUser, Sup.combine_user_message_with_context prompt m
          (Sup.retrieve_relevant_information env m)⟩]) := by
  refine ⟨?_, ?_, ?_, ?_⟩
  · intro env prompt m body ms
    cases hr : RAG.retrieve_relevant_information env m with
    | error e => simp [RAG.pipe, RAG.augmentedBody, hr]
    | ok ctxs => simp [RAG.pipe, RAG.augmentedBody, hr]
  · intro env prompt m body ctxs hret
    simp [RAG.augmentedBody, hret]
  · intro env prompt m body ms
    rfl
  · intro env prompt m body
    rfl

/-- Witness for C8 at a concrete baseline environment: the augmented body's
messages list is the single freshly synthesized user turn. -/
theorem statelessness_witness :
    RAG.retrieve_relevant_information envRagAllOk ['m'] = .ok [['X']] ∧
    RAG.augmentedBody envRagAllOk [] ['m'] bodyPlain =
      .ok { bodyPlain with messages :=
        [⟨roleUser,
          RAG.combine_user_message_with_context [] ['m'] [['X']]⟩] } :=
  ⟨rfl, statelessness.2.1 envRagAllOk [] ['m'] bodyPlain [['X']] rfl⟩

/-- C9 counterexample: a parseable frame whose `choices` array is present
but empty raises `IndexError` inside the assembly loop (it is not a
`json.JSONDecodeError`, so the per-frame handler does not catch it): the
assembly produces no answer string at all instead of the concatenation of
the frames' fragments (here the empty string). -/
theorem stream_assembly_counterexample :
    Sup.assembleStream [.frame []] = .error .otherError ∧
    Sup.assembleStream [.frame []] ≠ .ok (fragmentsSpec [.frame []]) :=
  ⟨rfl, by simp [Sup.assembleStream, Sup.assembleFrom]⟩

/-- C9 amended: whenever every parsed frame preceding the first `[DONE]`
sentinel carries a non-empty `choices` array, the assembled answer equals
the in-order concatenation of the content fragments of the parseable
frames before the sentinel; frames that fail to parse (and falsy or
non-`data:` lines) are skipped without affecting the assembly of
subsequent frames, and the result is a deterministic (pure) function of
the ordered frame sequence, so replaying the same frames yields the same
answer. -/
theorem stream_assembly_amended :
    ∀ ls : List StreamLine, framesWellFormed ls = true →
      Sup.assembleStream ls = .ok (fragmentsSpec ls) := by
  intro ls h
  have h2 := assembleFrom_wellFormed ls [] h
  simpa [Sup.assembleStream] using h2

/-- Witness for C9 (amended) on a concrete frame sequence with an
unparseable frame in the middle and a malformed frame after the sentinel. -/
theorem stream_assembly_amended_witness :
    framesWellFormed
      [.frame [['h', 'i']], .unparseable, .frame [['!']], .done,
       .frame []] = true ∧
    Sup.assembleStream
      [.frame [['h', 'i']], .unparseable, .frame [['!']], .done,
       .frame []] =
      .ok (fragmentsSpec
        [.frame [['h', 'i']], .unparseable, .frame [['!']], .done,
         .frame []]) :=
  ⟨rfl, stream_assembly_amended _ rfl⟩
